import Mathlib

set_option linter.unusedVariables false

/-!
Shallow embedding of the `lspsd` crate: the process-lifecycle supervisor
(`LspsD::with_conf`, `Drop`, `stop` in `src/lib.rs`), the typed HTTP control
client (`src/client.rs`), and the daemon's HTTP handlers (`src/main.rs`).

Effectful parts (OS ports, process spawning, HTTP, the filesystem) are made
explicit: each launch attempt's external behaviour is an `AttemptEnv` value
(the ports the OS hands out, whether the spawn succeeds, and the observed
sequence of readiness-loop observations), and `withConf` is the pure function
of the configuration and that environment which mirrors the control flow of
`LspsD::with_conf` line by line.  Machine integers are `Nat` with explicit
`% 2 ^ 64` where overflow matters.
-/

/-- Mirror of `LspConfig` (src/lib.rs): `pubkey`, `ip_port`, `token`. -/
structure LspConfigM where
  pubkey : String
  ip_port : String
  token : Option String
  deriving DecidableEq, Repr

/-- Mirror of `DataDir` (src/lib.rs): a node working directory is either
persistent (caller-supplied path) or temporary (a `TempDir`, recorded here by
the unique path that `TempDir::new`/`new_in` created). -/
inductive DataDir where
  | Persistent (path : String)
  | Temporary (path : String)
  deriving DecidableEq, Repr

/-- Mirror of `DataDir::path` (src/lib.rs). -/
def DataDir.path : DataDir → String
  | .Persistent p => p
  | .Temporary p => p

/-- Mirror of `Conf` (src/lib.rs).  `attempts` is a `u8` in the source; it is
only ever compared with 0 and decremented when positive, so `Nat` is a
faithful carrier for it. -/
structure Conf where
  view_stdout : Bool
  network : String
  tmpdir : Option String
  staticdir : Option String
  attempts : Nat
  esplora_url : Option String
  rgs_url : Option String
  deriving DecidableEq, Repr

/-- Mirror of `impl Default for Conf` (src/lib.rs). -/
def ConfDefault : Conf :=
  { view_stdout := false
    network := "regtest"
    tmpdir := none
    staticdir := none
    attempts := 3
    esplora_url := none
    rgs_url := none }

/-- The errors `with_conf` can surface, from `Error` (src/lib.rs) plus the
anyhow-wrapped spawn failure (`Command::spawn` error with context). -/
inductive LaunchError where
  | bothDirsSpecified
  | earlyExit (status : Int)
  | spawnFailed
  deriving DecidableEq, Repr

/-- Mirror of the `tmpdir` local in `with_conf` (src/lib.rs line 292):
`conf.tmpdir.clone().or_else(|| env::var("TEMPDIR_ROOT") ...)`. -/
def effectiveTmp (tempdirRootEnv : Option String) (conf : Conf) : Option String :=
  conf.tmpdir.orElse (fun _ => tempdirRootEnv)

/-- Mirror of the `work_dir` match in `with_conf` (src/lib.rs lines 296-304).
`osTempRoot` stands for the OS default temp root used by `TempDir::new`, and
`fresh` for the unique directory name the `tempfile` crate generates; a
temporary directory's path is the chosen root joined with that name. -/
def selectWorkDir (osTempRoot : String) (tempdirRootEnv : Option String)
    (fresh : String) (conf : Conf) : Except LaunchError DataDir :=
  match effectiveTmp tempdirRootEnv conf, conf.staticdir with
  | some _, some _ => .error .bothDirsSpecified
  | some t, none => .ok (.Temporary (t ++ "/" ++ fresh))
  | none, some w => .ok (.Persistent w)
  | none, none => .ok (.Temporary (osTempRoot ++ "/" ++ fresh))

/-- The three `Stdio` configurations used by `std::process`. -/
inductive StdioCfg where
  | inheritIo
  | nullIo
  | pipedIo
  deriving DecidableEq, Repr

/-- How a spawned child's standard streams were configured. -/
structure SpawnCfg where
  stdoutCfg : StdioCfg
  stderrCfg : StdioCfg
  deriving DecidableEq, Repr

/-- Mirror of the `Command` stdio setup in `with_conf` (src/lib.rs lines
324-328 and 348-351): stdout is `inherit` when `view_stdout` and `null`
otherwise; stderr is never configured, so it keeps the spawn default
(`inherit`), never `piped`. -/
def buildSpawnCfg (conf : Conf) : SpawnCfg :=
  { stdoutCfg := if conf.view_stdout then .inheritIo else .nullIo
    stderrCfg := .inheritIo }

/-- A `Child`'s `stderr` field is `Some` pipe handle exactly when the stream
was configured as `Stdio::piped()`. -/
def childStderrHandle (c : SpawnCfg) : Option Unit :=
  match c.stderrCfg with
  | .pipedIo => some ()
  | _ => none

/-- One iteration's observation in the readiness loop of `with_conf`
(src/lib.rs lines 356-385): either `try_wait` reports the child exited with a
status, or the child is alive and the `get_lsps_config` probe either succeeds
with a config or fails. -/
inductive PollStep where
  | exited (status : Int)
  | probeOk (cfg : LspConfigM)
  | probeErr
  deriving DecidableEq, Repr

/-- Result of running the readiness loop on a finite observation trace. -/
inductive LoopRes where
  | hangL
  | panickedL
  | exitedL (status : Int)
  | readyL (cfg : LspConfigM)
  deriving DecidableEq, Repr

/-- Mirror of the readiness loop body in `with_conf` (src/lib.rs lines
356-385): each iteration first checks `try_wait` (an exit ends the attempt
before the assert is reached); while the child is alive the loop sleeps,
asserts `process.stderr.is_none()`, and probes `get_lsps_config`, breaking
with the returned config on success and looping on failure.  An exhausted
trace means the loop would keep polling (`hangL`). -/
def runLoop (cfg : SpawnCfg) : List PollStep → LoopRes
  | [] => .hangL
  | .exited s :: _ => .exitedL s
  | .probeOk c :: _ =>
      if (childStderrHandle cfg).isSome then .panickedL else .readyL c
  | .probeErr :: rest =>
      if (childStderrHandle cfg).isSome then .panickedL else runLoop cfg rest

/-- The environment one launch attempt interacts with: the unique temp-dir
name the `tempfile` crate would generate, the two ports `get_available_port`
hands out (api first, then lightning, src/lib.rs lines 311-319), whether
`Command::spawn` succeeds, and the readiness-loop observations. -/
structure AttemptEnv where
  freshName : String
  apiPort : Nat
  lightningPort : Nat
  spawnOk : Bool
  poll : List PollStep
  deriving DecidableEq, Repr

/-- The fields of a successfully launched `LspsD` that the model tracks:
working directory, the two ports in `ConnectParams`, and the `LspConfig`
returned by the successful readiness probe. -/
structure LspsDModel where
  workDir : DataDir
  apiPort : Nat
  lightningPort : Nat
  lspConfig : LspConfigM
  deriving DecidableEq, Repr

/-- Outcome of `with_conf`, instrumented with the number of successful child
spawns performed across all attempts (ghost state; the source does not count
them).  `hang` means the supplied observation traces ran out while the loop
would still be polling; `panicked` would mean the stderr assert fired. -/
inductive LaunchRes where
  | ok (inst : LspsDModel) (spawns : Nat)
  | err (e : LaunchError) (spawns : Nat)
  | hang (spawns : Nat)
  | panicked (spawns : Nat)
  deriving DecidableEq, Repr

/-- Add one successful spawn to an outcome's ghost counter. -/
def addSpawn : LaunchRes → LaunchRes
  | .ok i n => .ok i (n + 1)
  | .err e n => .err e (n + 1)
  | .hang n => .hang (n + 1)
  | .panicked n => .panicked (n + 1)

/-- Mirror of `conf.attempts -= 1` in the retry branch of `with_conf`
(src/lib.rs lines 360-361), taken only when `conf.attempts > 0`. -/
def decAttempts (c : Conf) : Conf :=
  { c with attempts := c.attempts - 1 }

/-- Mirror of `LspsD::with_conf` (src/lib.rs lines 291-397) over the explicit
attempt environments, one per launch attempt, consumed front to back.  Each
attempt re-runs working-directory selection, takes that attempt's two fresh
ports, spawns, and runs the readiness loop; on an observed early exit with a
positive budget the whole launch restarts on the remaining environments with
the budget decremented, and with an exhausted budget it returns
`Error::EarlyExit(status)`. -/
def withConf (osTempRoot : String) (tempdirRootEnv : Option String) :
    Conf → List AttemptEnv → LaunchRes
  | conf, [] =>
      match selectWorkDir osTempRoot tempdirRootEnv "" conf with
      | .error e => .err e 0
      | .ok _ => .hang 0
  | conf, ae :: rest =>
      match selectWorkDir osTempRoot tempdirRootEnv ae.freshName conf with
      | .error e => .err e 0
      | .ok wd =>
          if ae.spawnOk then
            match runLoop (buildSpawnCfg conf) ae.poll with
            | .hangL => .hang 1
            | .panickedL => .panicked 1
            | .readyL cfg =>
                .ok { workDir := wd, apiPort := ae.apiPort,
                      lightningPort := ae.lightningPort, lspConfig := cfg } 1
            | .exitedL s =>
                if 0 < conf.attempts then
                  addSpawn (withConf osTempRoot tempdirRootEnv (decAttempts conf) rest)
                else
                  .err (.earlyExit s) 1
          else
            .err .spawnFailed 0

/-- Directory selection succeeds (no `BothDirsSpecified`) exactly when the
effective tmpdir and the staticdir are not both set. -/
def dirFree (tempdirRootEnv : Option String) (conf : Conf) : Bool :=
  (effectiveTmp tempdirRootEnv conf).isNone || conf.staticdir.isNone

/-! ## Teardown: `LspsD::stop` and `impl Drop for LspsD` (src/lib.rs) -/

/-- The primitive process/filesystem actions teardown can perform.
`termRequest` stands for sending the child a graceful-exit request (a signal
or a stop RPC); the source never performs it. -/
inductive TeardownStep where
  | termRequest
  | waitChild
  | killChild
  | removeDirTree (p : String)
  deriving DecidableEq, Repr

/-- Mirror of `LspsD::stop` (src/lib.rs lines 410-413): its body is
`Ok(self.process.wait()?)` (with a `// TODO: impl stop` comment), i.e. the
only action performed is waiting on the child. -/
def stopSteps : List TeardownStep := [.waitChild]

/-- Mirror of `stop`'s return value: the exit status observed by
`process.wait()`. -/
def stopReturn (observedExit : Int) : Int := observedExit

/-- Mirror of `impl Drop for LspsD` (src/lib.rs lines 427-434) together with
the drop of the owned `DataDir`: a persistent instance first runs `stop`
(its steps), then `kill`; a temporary instance goes straight to `kill`, and
dropping the contained `TempDir` removes its directory tree. -/
def dropSteps : DataDir → List TeardownStep
  | .Persistent _ => stopSteps ++ [.killChild]
  | .Temporary p => [.killChild, .removeDirTree p]

/-- Boolean char-list prefix test (used to model "path `q` lies inside the
directory tree rooted at `p`"). -/
def listStarts : List Char → List Char → Bool
  | [], _ => true
  | _ :: _, [] => false
  | c :: cs, d :: ds => c == d && listStarts cs ds

/-- `p` is a path-prefix of `q` (so `q` is `p` itself or inside its tree). -/
def pathStarts (p q : String) : Bool := listStarts p.data q.data

/-- The directory tree removed by dropping the instance: the temp dir for a
`Temporary` working directory (removed by `TempDir`'s drop), nothing for a
`Persistent` one (the `Drop` impl never touches the filesystem itself). -/
def dropRemovedDir : DataDir → Option String
  | .Persistent _ => none
  | .Temporary p => some p

/-- Effect of dropping an `LspsD` on a filesystem snapshot (a list of the
paths that exist): paths inside a removed temporary tree disappear; a
persistent working directory leaves the filesystem untouched. -/
def applyDrop (fs : List String) (d : DataDir) : List String :=
  match dropRemovedDir d with
  | some p => fs.filter (fun q => !(pathStarts p q))
  | none => fs

/-! ## The channel-confirmation event loop of `open_channel` (src/main.rs) -/

/-- The node events the loop in `open_channel` (src/main.rs lines 290-318)
distinguishes: `ChannelPending`, `ChannelReady`, and everything else. -/
inductive NodeEvent where
  | channelPending
  | channelReady
  | otherEvent
  deriving DecidableEq, Repr

/-- The observable actions of the confirmation loop: fetching the next event
(`wait_next_event`), mining `n` blocks, waiting for the indexer height,
resyncing the wallet, and acknowledging the current event (`event_handled`). -/
inductive ChanAction where
  | fetchE
  | mineBlocks (n : Nat)
  | waitHeight
  | syncWallets
  | ackE
  deriving DecidableEq, Repr

/-- Mirror of the loop body in `open_channel` (src/main.rs lines 292-316),
run against the stream of events the node will emit: fetch the event; if it
is `ChannelPending`, mine 6 blocks, wait for the indexer height and resync
wallets; if it is `ChannelReady`, acknowledge it and break; otherwise
acknowledge it and continue.  `none` means the event stream was exhausted
while the loop would still be blocking on `wait_next_event`. -/
def confirmLoop : List NodeEvent → Option (List ChanAction)
  | [] => none
  | e :: rest =>
      let pendingActs : List ChanAction :=
        if e = .channelPending then [.mineBlocks 6, .waitHeight, .syncWallets] else []
      if e = .channelReady then
        some (.fetchE :: pendingActs ++ [.ackE])
      else
        match confirmLoop rest with
        | none => none
        | some tl => some (.fetchE :: pendingActs ++ .ackE :: tl)

/-- The action block one non-final event produces (used to state the shape of
the loop's action trace). -/
def stepActions : NodeEvent → List ChanAction
  | .channelPending => [.fetchE, .mineBlocks 6, .waitHeight, .syncWallets, .ackE]
  | .channelReady => [.fetchE, .ackE]
  | .otherEvent => [.fetchE, .ackE]

/-- Acknowledgement discipline checker: scanning an action trace, between a
`fetchE` and the next `fetchE` (or the end) exactly one `ackE` must occur,
and no `ackE` may occur without a preceding unacknowledged `fetchE`.  The
Bool state records whether a fetched event is currently unacknowledged. -/
def ackCheck : Bool → List ChanAction → Bool
  | false, [] => true
  | true, [] => false
  | false, .fetchE :: rest => ackCheck true rest
  | false, .ackE :: _ => false
  | false, _ :: rest => ackCheck false rest
  | true, .ackE :: rest => ackCheck false rest
  | true, .fetchE :: _ => false
  | true, _ :: rest => ackCheck true rest

/-! ## The control client (src/client.rs) -/

/-- The outcome of the single HTTP exchange an operation performs:
`sendErr` is a transport failure of `send()`, `jsonErr` a failure of
`json::<T>()` decoding the response body, `ok` a decoded value. -/
inductive WireResult (α : Type) where
  | sendErr
  | jsonErr
  | ok (a : α)
  deriving DecidableEq, Repr

/-- The two error classes `minreq::Error` covers for these calls. -/
inductive ClientErr where
  | transport
  | decode
  deriving DecidableEq, Repr

/-- What an operation of `LspsClient` can do: return a value, return an
error, or panic (an `unwrap` firing). -/
inductive OpOutcome (α : Type) where
  | ok (a : α)
  | err (e : ClientErr)
  | panicked
  deriving DecidableEq, Repr

/-- The `send()?` / `json::<T>()?` pattern every client call uses: one
request, errors propagated with `?`. -/
def requestOnce {α : Type} : WireResult α → OpOutcome α
  | .sendErr => .err .transport
  | .jsonErr => .err .decode
  | .ok a => .ok a

/-- Mirror of `FundingAddress` (src/lib.rs). -/
structure FundingAddressM where
  address : String
  deriving DecidableEq, Repr

/-- Mirror of `CompactChannel` (src/lib.rs), with the foreign key/id types
abstracted to strings and the `u64`/`u128` counters to `Nat`. -/
structure CompactChannelM where
  channel_id : String
  counterparty_node_id : String
  channel_value_sats : Nat
  user_channel_id : Nat
  outbound_capacity_msat : Nat
  inbound_capacity_msat : Nat
  is_channel_ready : Bool
  is_usable : Bool
  deriving DecidableEq, Repr

/-- Mirror of `OpenChannelResponse` (src/lib.rs). -/
structure OpenChannelResponseM where
  user_channel_id : Nat
  deriving DecidableEq, Repr

/-- Mirror of `PayInvoiceResponse` (src/lib.rs); its single field is the
payment identifier string the client call returns. -/
structure PayInvoiceResponseM where
  payment_id : String
  deriving DecidableEq, Repr

/-- Mirror of `GetInvoiceResponse` (src/lib.rs). -/
structure GetInvoiceResponseM where
  invoice : String
  deriving DecidableEq, Repr

/-- Mirror of `GetBalanceResponse` (src/lib.rs). -/
structure GetBalanceResponseM where
  total_onchain_balance_sats : Nat
  spendable_onchain_balance_sats : Nat
  deriving DecidableEq, Repr

/-- An opaque stand-in for `Bolt11Invoice`. -/
structure Bolt11M where
  raw : String
  deriving DecidableEq, Repr

namespace LspsClient

/-- Mirror of `LspsClient::get_lsps_config` (src/client.rs lines 24-27): one
GET, result decoded, errors propagated.  The first component is the number of
HTTP requests issued (ghost instrumentation; always 1, no retry). -/
def get_lsps_config (w : WireResult LspConfigM) : Nat × OpOutcome LspConfigM :=
  (1, requestOnce w)

/-- Mirror of `LspsClient::get_funding_address` (src/client.rs lines 29-32). -/
def get_funding_address (w : WireResult FundingAddressM) :
    Nat × OpOutcome FundingAddressM :=
  (1, requestOnce w)

/-- Mirror of `LspsClient::list_channels` (src/client.rs lines 34-37). -/
def list_channels (w : WireResult (List CompactChannelM)) :
    Nat × OpOutcome (List CompactChannelM) :=
  (1, requestOnce w)

/-- Mirror of `LspsClient::open_channel` (src/client.rs lines 39-56): builds
the JSON body (serialization of these plain structs cannot fail, so the
`with_json(..).unwrap()` is not modelled as fallible), posts once, propagates
send and decode errors with `?`. -/
def open_channel (w : WireResult OpenChannelResponseM) :
    Nat × OpOutcome OpenChannelResponseM :=
  (1, requestOnce w)

/-- Mirror of `LspsClient::pay_invoice` (src/client.rs lines 58-65): posts
once, decodes the response and projects its payment identifier field. -/
def pay_invoice (w : WireResult PayInvoiceResponseM) : Nat × OpOutcome String :=
  (1, match requestOnce w with
      | .ok r => .ok r.payment_id
      | .err e => .err e
      | .panicked => .panicked)

/-- Mirror of `LspsClient::get_invoice` (src/client.rs lines 67-82): posts
once, decodes a `GetInvoiceResponse` with `?`, then parses the contained
invoice string with `Bolt11Invoice::from_str(..).unwrap()` — a parse failure
panics instead of returning an error.  `parse` is the Bolt11 parser. -/
def get_invoice (parse : String → Option Bolt11M)
    (w : WireResult GetInvoiceResponseM) : Nat × OpOutcome Bolt11M :=
  (1, match requestOnce w with
      | .ok r =>
          match parse r.invoice with
          | some inv => .ok inv
          | none => .panicked
      | .err e => .err e
      | .panicked => .panicked)

/-- Mirror of `LspsClient::sync` (src/client.rs lines 84-88): posts once with
`send()?` and ignores the response body (no decode step at all). -/
def sync (w : WireResult Unit) : Nat × OpOutcome Unit :=
  (1, match w with
      | .sendErr => .err .transport
      | _ => .ok ())

/-- Mirror of `LspsClient::get_balance` (src/client.rs lines 90-93). -/
def get_balance (w : WireResult GetBalanceResponseM) :
    Nat × OpOutcome GetBalanceResponseM :=
  (1, requestOnce w)

end LspsClient

/-! ## Daemon HTTP handlers (src/main.rs) -/

/-- The `u64` modulus. -/
def U64MOD : Nat := 2 ^ 64

/-- Mirror of `OpenChannelRequest` (src/lib.rs), `u64` fields as `Nat`
(callers must keep them below `U64MOD`). -/
structure OpenChannelRequestM where
  pubkey : String
  ip_port : String
  funding_sats : Nat
  push_sats : Nat
  deriving DecidableEq, Repr

/-- Mirror of the push-amount argument the `open_channel` handler passes to
`node.open_channel` (src/main.rs line 285): `Some(req.push_sats * 1000)`,
a wrapping `u64` multiplication of the request's satoshi field into
millisatoshis. -/
def openChannelPushArgMsat (req : OpenChannelRequestM) : Nat :=
  (req.push_sats * 1000) % U64MOD

/-- Hex digit value, as accepted by the `hex` crate (both cases). -/
def hexVal (c : Char) : Option Nat :=
  if '0' ≤ c ∧ c ≤ '9' then some (c.toNat - '0'.toNat)
  else if 'a' ≤ c ∧ c ≤ 'f' then some (c.toNat - 'a'.toNat + 10)
  else if 'A' ≤ c ∧ c ≤ 'F' then some (c.toNat - 'A'.toNat + 10)
  else none

/-- Decode a char list as hex byte pairs; fails on an odd length or any
non-hex character (the `hex::FromHex` decoding step). -/
def decodePairs : List Char → Option (List Nat)
  | [] => some []
  | [_] => none
  | c1 :: c2 :: rest =>
      match hexVal c1, hexVal c2, decodePairs rest with
      | some h, some l, some tl => some ((16 * h + l) :: tl)
      | _, _, _ => none

/-- Mirror of `<[u8; 32]>::from_hex` (src/main.rs line 380): the string must
decode as hex and yield exactly 32 bytes. -/
def fromHexArr32 (s : String) : Option (List Nat) :=
  match decodePairs s.data with
  | some bytes => if bytes.length = 32 then some bytes else none
  | none => none

/-- Mirror of `ldk_node::payment::PaymentStatus`. -/
inductive PaymentStatusM where
  | pending
  | succeeded
  | failed
  deriving DecidableEq, Repr

/-- Mirror of the status-string match in `get_payment` (src/main.rs lines
385-389). -/
def statusString : PaymentStatusM → String
  | .pending => "pending"
  | .succeeded => "succeeded"
  | .failed => "failed"

/-- A handler either produces a JSON response value or panics (an `unwrap`
firing inside the handler). -/
inductive HandlerOut (α : Type) where
  | ok (a : α)
  | panicked
  deriving DecidableEq, Repr

/-- Mirror of the `get_payment` handler (src/main.rs lines 376-391): hex-
decode the path parameter with `unwrap` (panics unless it is exactly 64 hex
characters), look the payment up with `unwrap` (panics when absent), and
answer with the status string.  `lookup` abstracts `state.node.payment`. -/
def get_payment (lookup : List Nat → Option PaymentStatusM) (id : String) :
    HandlerOut String :=
  match fromHexArr32 id with
  | none => .panicked
  | some bytes =>
      match lookup bytes with
      | none => .panicked
      | some st => .ok (statusString st)

/-! ## Helper lemmas -/

theorem childStderr_buildSpawnCfg (conf : Conf) :
    childStderrHandle (buildSpawnCfg conf) = none := rfl

theorem buildSpawnCfg_decAttempts (conf : Conf) :
    buildSpawnCfg (decAttempts conf) = buildSpawnCfg conf := rfl

theorem dirFree_decAttempts (envRoot : Option String) (conf : Conf) :
    dirFree envRoot (decAttempts conf) = dirFree envRoot conf := rfl

theorem selectWorkDir_of_dirFree (osTempRoot : String) (envRoot : Option String)
    (fresh : String) (conf : Conf) (h : dirFree envRoot conf = true) :
    ∃ wd, selectWorkDir osTempRoot envRoot fresh conf = .ok wd := by
  unfold selectWorkDir
  unfold dirFree at h
  rcases he : effectiveTmp envRoot conf with _ | t <;>
    rcases hs : conf.staticdir with _ | w <;>
      simp [he, hs] at h ⊢

theorem runLoop_ne_panicked (conf : Conf) (l : List PollStep) :
    runLoop (buildSpawnCfg conf) l ≠ .panickedL := by
  induction l with
  | nil => simp [runLoop]
  | cons step rest ih =>
      cases step <;> simp [runLoop, childStderr_buildSpawnCfg, ih]

theorem runLoop_ready_char (conf : Conf) (l : List PollStep) (c : LspConfigM)
    (h : runLoop (buildSpawnCfg conf) l = .readyL c) :
    ∃ m tail, l = List.replicate m .probeErr ++ .probeOk c :: tail := by
  induction l with
  | nil => simp [runLoop] at h
  | cons step rest ih =>
      cases step with
      | exited s => simp [runLoop] at h
      | probeOk c' =>
          simp [runLoop, childStderr_buildSpawnCfg] at h
          exact ⟨0, rest, by simp [h]⟩
      | probeErr =>
          simp only [runLoop, childStderr_buildSpawnCfg, Option.isSome_none,
            Bool.false_eq_true, if_false] at h
          obtain ⟨m, tail, ht⟩ := ih h
          exact ⟨m + 1, tail, by simp [List.replicate_succ, ht]⟩

theorem addSpawn_eq_ok (r : LaunchRes) (inst : LspsDModel) (n : Nat)
    (h : addSpawn r = .ok inst n) : ∃ k, n = k + 1 ∧ r = .ok inst k := by
  cases r <;> simp [addSpawn] at h
  exact ⟨_, h.2.symm, by simp [h.1]⟩

theorem addSpawn_panicked (r : LaunchRes) :
    (∀ n, r ≠ .panicked n) → ∀ n, addSpawn r ≠ .panicked n := by
  intro h n
  cases r with
  | ok i m => simp [addSpawn]
  | err e m => simp [addSpawn]
  | hang m => simp [addSpawn]
  | panicked m => exact absurd rfl (h m)

theorem listStarts_self (l : List Char) : listStarts l l = true := by
  induction l with
  | nil => rfl
  | cons c cs ih => simp [listStarts, ih]

theorem pathStarts_self (p : String) : pathStarts p p = true :=
  listStarts_self p.data

/-! ## Claim theorems -/

/-- C3 (counterexample): working-directory selection is not a pure function
of the pair `{tmpdir, staticdir}`, and the rule "staticdir only yields that
directory as a persistent directory" fails: with `tmpdir = none` and
`staticdir = some "/data"`, the result flips from the persistent directory to
the `BothDirsSpecified` error once the `TEMPDIR_ROOT` environment variable is
set. -/
theorem selectWorkDirNotFunctionOfPair :
    selectWorkDir "/tmp" (some "/ram") "t0"
      { view_stdout := false, network := "regtest", tmpdir := none,
        staticdir := some "/data", attempts := 3, esplora_url := none,
        rgs_url := none } = .error .bothDirsSpecified ∧
    selectWorkDir "/tmp" none "t0"
      { view_stdout := false, network := "regtest", tmpdir := none,
        staticdir := some "/data", attempts := 3, esplora_url := none,
        rgs_url := none } = .ok (.Persistent "/data") :=
  ⟨rfl, rfl⟩

/-- C3 (amended): working-directory selection is a pure function of the pair
{effective tmpdir, staticdir}, where the effective tmpdir is `conf.tmpdir`
or, when that is unset, the `TEMPDIR_ROOT` environment value; the four rules
apply in order to that effective pair, and the both-set configuration error
is returned by `with_conf` with zero processes spawned. -/
theorem selectWorkDirEffectiveRules :
    ∀ (osTempRoot : String) (envRoot : Option String) (fresh : String) (conf : Conf),
      ((effectiveTmp envRoot conf).isSome = true → conf.staticdir.isSome = true →
        selectWorkDir osTempRoot envRoot fresh conf = .error .bothDirsSpecified) ∧
      (∀ t, effectiveTmp envRoot conf = some t → conf.staticdir = none →
        selectWorkDir osTempRoot envRoot fresh conf =
          .ok (.Temporary (t ++ "/" ++ fresh))) ∧
      (∀ p, effectiveTmp envRoot conf = none → conf.staticdir = some p →
        selectWorkDir osTempRoot envRoot fresh conf = .ok (.Persistent p)) ∧
      (effectiveTmp envRoot conf = none → conf.staticdir = none →
        selectWorkDir osTempRoot envRoot fresh conf =
          .ok (.Temporary (osTempRoot ++ "/" ++ fresh))) ∧
      (∀ envs : List AttemptEnv,
        (effectiveTmp envRoot conf).isSome = true → conf.staticdir.isSome = true →
        withConf osTempRoot envRoot conf envs = .err .bothDirsSpecified 0) := by
  intro osTempRoot envRoot fresh conf
  refine ⟨?_, ?_, ?_, ?_, ?_⟩
  · intro h1 h2
    rcases Option.isSome_iff_exists.mp h1 with ⟨t, ht⟩
    rcases Option.isSome_iff_exists.mp h2 with ⟨w, hw⟩
    simp [selectWorkDir, ht, hw]
  · intro t ht hw
    simp [selectWorkDir, ht, hw]
  · intro p ht hw
    simp [selectWorkDir, ht, hw]
  · intro ht hw
    simp [selectWorkDir, ht, hw]
  · intro envs h1 h2
    rcases Option.isSome_iff_exists.mp h1 with ⟨t, ht⟩
    rcases Option.isSome_iff_exists.mp h2 with ⟨w, hw⟩
    cases envs with
    | nil => simp [withConf, selectWorkDir, ht, hw]
    | cons ae rest => simp [withConf, selectWorkDir, ht, hw]

/-- C3 (witness): the amended rules evaluated at a configuration with a
static dir and a `TEMPDIR_ROOT` override. -/
theorem selectWorkDirEffectiveRulesWitness :
    selectWorkDir "/os" (some "/ram") "u1"
      { view_stdout := false, network := "regtest", tmpdir := none,
        staticdir := some "/persist", attempts := 3, esplora_url := none,
        rgs_url := none } = .error .bothDirsSpecified ∧
    withConf "/os" (some "/ram")
      { view_stdout := false, network := "regtest", tmpdir := none,
        staticdir := some "/persist", attempts := 3, esplora_url := none,
        rgs_url := none } [] = .err .bothDirsSpecified 0 := by
  have h := selectWorkDirEffectiveRules "/os" (some "/ram") "u1"
    { view_stdout := false, network := "regtest", tmpdir := none,
      staticdir := some "/persist", attempts := 3, esplora_url := none,
      rgs_url := none }
  exact ⟨h.1 (by decide) (by decide), h.2.2.2.2 [] (by decide) (by decide)⟩

/-- C4: dropping an instance removes a `Temporary` working directory (and its
tree) from the filesystem, while a `Persistent` working directory and its
contents are left untouched. -/
theorem dropTemporaryRemovedPersistentKept :
    ∀ (fs : List String) (p : String),
      (∀ q, q ∈ applyDrop fs (.Temporary p) → pathStarts p q = false) ∧
      (∀ q, q ∈ applyDrop fs (.Temporary p) → q ≠ p) ∧
      applyDrop fs (.Persistent p) = fs := by
  intro fs p
  have key : ∀ q, q ∈ applyDrop fs (.Temporary p) → pathStarts p q = false := by
    intro q hq
    have hq2 : q ∈ fs.filter (fun q => !(pathStarts p q)) := hq
    have := (List.mem_filter.mp hq2).2
    simpa using this
  refine ⟨key, ?_, rfl⟩
  intro q hq hqp
  have := key q hq
  rw [hqp] at this
  simp [pathStarts_self] at this

/-- C4 (witness): a concrete filesystem snapshot before and after teardown of
a temporary and of a persistent instance. -/
theorem dropTemporaryRemovedPersistentKeptWitness :
    pathStarts "/tmp/x" "/data" = false ∧
    applyDrop ["/tmp/x", "/tmp/x/db", "/data"] (.Persistent "/tmp/x") =
      ["/tmp/x", "/tmp/x/db", "/data"] := by
  have h := dropTemporaryRemovedPersistentKept ["/tmp/x", "/tmp/x/db", "/data"] "/tmp/x"
  exact ⟨h.1 "/data" (by decide), h.2.2⟩

/-- C7: as written in the source, `stop` performs no graceful-exit request at
all — its only step is `process.wait()` (the body is marked `TODO: impl
stop`), returning the observed exit status; on drop a persistent instance
runs the stop path then the unconditional kill, while a temporary instance
goes straight to the kill and the directory-tree removal. -/
theorem stopOnlyWaitsDropOrder :
    stopSteps.contains .termRequest = false ∧
    stopSteps = [.waitChild] ∧
    (∀ s : Int, stopReturn s = s) ∧
    (∀ p, dropSteps (.Persistent p) = stopSteps ++ [.killChild]) ∧
    (∀ p, dropSteps (.Temporary p) = [.killChild, .removeDirTree p]) :=
  ⟨rfl, rfl, fun _ => rfl, fun _ => rfl, fun _ => rfl⟩

/-- C8: the supervisor never configures the child's stderr as a pipe (only
stdout is redirected, to inherit or null), so the spawned child's stderr
handle is `None` and the readiness-loop assertion can never fire: `withConf`
never reaches the `panicked` outcome, whatever the configuration and the
environment. -/
theorem withConfNeverPanics :
    ∀ (osTempRoot : String) (envRoot : Option String) (conf : Conf)
      (envs : List AttemptEnv),
      childStderrHandle (buildSpawnCfg conf) = none ∧
      ∀ n, withConf osTempRoot envRoot conf envs ≠ .panicked n := by
  intro osTempRoot envRoot conf envs
  refine ⟨childStderr_buildSpawnCfg conf, ?_⟩
  induction envs generalizing conf with
  | nil =>
      intro n
      unfold withConf
      cases selectWorkDir osTempRoot envRoot "" conf <;> simp
  | cons ae rest ih =>
      intro n
      unfold withConf
      cases selectWorkDir osTempRoot envRoot ae.freshName conf with
      | error e => simp
      | ok wd =>
          cases hsp : ae.spawnOk with
          | false => simp
          | true =>
              simp only [if_true]
              cases hr : runLoop (buildSpawnCfg conf) ae.poll with
              | hangL => simp
              | panickedL => exact absurd hr (runLoop_ne_panicked conf ae.poll)
              | readyL c => simp
              | exitedL s =>
                  by_cases ha : 0 < conf.attempts
                  · simp only [ha, if_true]
                    exact addSpawn_panicked _ (ih (decAttempts conf)) n
                  · simp [ha]

/-- C8 (witness): the no-panicked guarantee evaluated at the default
configuration and an empty environment. -/
theorem withConfNeverPanicsWitness :
    childStderrHandle (buildSpawnCfg ConfDefault) = none ∧
    withConf "/tmp" none ConfDefault [] ≠ .panicked 0 :=
  ⟨(withConfNeverPanics "/tmp" none ConfDefault []).1,
   (withConfNeverPanics "/tmp" none ConfDefault []).2 0⟩

/-- C1: when every launch attempt's spawn exits early, `with_conf` restarts
the whole launch — consuming a fresh attempt environment (fresh ports) each
time, never reusing a failed attempt's — decrementing the budget, until the
budget is exhausted, at which point it returns the early-exit error carrying
the status observed on the final attempt; for `attempts = n` exactly `n + 1`
spawns occur. -/
theorem withConfRetryBudgetExhaustion :
    ∀ (osTempRoot : String) (envRoot : Option String) (conf : Conf)
      (envs : List AttemptEnv) (st : Nat → Int),
      dirFree envRoot conf = true →
      (∀ ae ∈ envs, ae.spawnOk = true) →
      (∀ i (h : i < envs.length),
        runLoop (buildSpawnCfg conf) (envs.get ⟨i, h⟩).poll = .exitedL (st i)) →
      conf.attempts < envs.length →
      withConf osTempRoot envRoot conf envs =
        .err (.earlyExit (st conf.attempts)) (conf.attempts + 1) := by
  intro osTempRoot envRoot conf envs st
  induction envs generalizing conf st with
  | nil =>
      intro _ _ _ hlen
      exact absurd hlen (Nat.not_lt_zero _)
  | cons ae rest ih =>
      intro hdir hspawn hexit hlen
      obtain ⟨wd, hwd⟩ := selectWorkDir_of_dirFree osTempRoot envRoot ae.freshName conf hdir
      have hsp : ae.spawnOk = true := hspawn ae (List.mem_cons_self ae rest)
      have h0 : runLoop (buildSpawnCfg conf) ae.poll = .exitedL (st 0) :=
        hexit 0 (Nat.succ_pos _)
      cases ha : conf.attempts with
      | zero =>
          unfold withConf
          simp [hwd, hsp, h0, ha]
      | succ k =>
          have hrec := ih (decAttempts conf) (fun i => st (i + 1))
            (by rw [dirFree_decAttempts]; exact hdir)
            (fun b hb => hspawn b (List.mem_cons_of_mem ae hb))
            (by
              intro i hi
              rw [buildSpawnCfg_decAttempts]
              exact hexit (i + 1) (Nat.succ_lt_succ hi))
            (by
              have h1 : (decAttempts conf).attempts = conf.attempts - 1 := rfl
              rw [h1]
              simp only [List.length_cons] at hlen
              omega)
          have hrec2 : withConf osTempRoot envRoot (decAttempts conf) rest =
              .err (.earlyExit (st (k + 1))) (k + 1) := by
            simpa [decAttempts, ha] using hrec
          unfold withConf
          simp [hwd, hsp, h0, ha, hrec2, addSpawn]

/-- C1 (witness): a two-attempt budget-1 launch where both spawns exit early
ends with the early-exit error after exactly two spawns. -/
theorem withConfRetryBudgetExhaustionWitness :
    withConf "/tmp" none
      { view_stdout := false, network := "regtest", tmpdir := none,
        staticdir := none, attempts := 1, esplora_url := none, rgs_url := none }
      [⟨"a", 11, 12, true, [.exited 1]⟩, ⟨"b", 13, 14, true, [.probeErr, .exited 1]⟩] =
      .err (.earlyExit 1) 2 :=
  withConfRetryBudgetExhaustion "/tmp" none
    { view_stdout := false, network := "regtest", tmpdir := none,
      staticdir := none, attempts := 1, esplora_url := none, rgs_url := none }
    [⟨"a", 11, 12, true, [.exited 1]⟩, ⟨"b", 13, 14, true, [.probeErr, .exited 1]⟩]
    (fun _ => 1) (by decide) (by decide) (by decide) (by decide)

/-- C2: a probe failure while the child is alive only makes the readiness
loop poll again, and every successful `with_conf` return comes from an
attempt whose observation trace is some number of failed probes followed by a
successful `get_lsps_config` probe returning exactly the `LspConfig` the
instance carries. -/
theorem withConfOkFromSuccessfulProbe :
    ∀ (osTempRoot : String) (envRoot : Option String) (conf : Conf)
      (envs : List AttemptEnv) (inst : LspsDModel) (n : Nat),
      (∀ l, runLoop (buildSpawnCfg conf) (.probeErr :: l) =
        runLoop (buildSpawnCfg conf) l) ∧
      (withConf osTempRoot envRoot conf envs = .ok inst n →
        ∃ i, ∃ h : i < envs.length, ∃ m tail,
          (envs.get ⟨i, h⟩).poll =
            List.replicate m .probeErr ++ .probeOk inst.lspConfig :: tail) := by
  intro osTempRoot envRoot conf envs inst n
  constructor
  · intro l
    simp [runLoop, childStderr_buildSpawnCfg]
  induction envs generalizing conf n with
  | nil =>
      intro h
      unfold withConf at h
      cases hw : selectWorkDir osTempRoot envRoot "" conf <;> rw [hw] at h <;> simp at h
  | cons ae rest ih =>
      intro h
      unfold withConf at h
      cases hw : selectWorkDir osTempRoot envRoot ae.freshName conf with
      | error e => rw [hw] at h; simp at h
      | ok wd =>
          rw [hw] at h
          cases hsp : ae.spawnOk with
          | false => simp [hsp] at h
          | true =>
              cases hr : runLoop (buildSpawnCfg conf) ae.poll with
              | hangL => simp [hsp, hr] at h
              | panickedL => exact absurd hr (runLoop_ne_panicked conf ae.poll)
              | readyL c =>
                  have h2 : LaunchRes.ok
                      { workDir := wd, apiPort := ae.apiPort,
                        lightningPort := ae.lightningPort, lspConfig := c } 1 =
                      LaunchRes.ok inst n := by
                    simpa [hsp, hr] using h
                  injection h2 with h3 h4
                  obtain ⟨m, tail, ht⟩ := runLoop_ready_char conf ae.poll c hr
                  refine ⟨0, Nat.succ_pos _, m, tail, ?_⟩
                  have hcfg : inst.lspConfig = c := by rw [← h3]
                  rw [hcfg]
                  exact ht
              | exitedL s =>
                  by_cases ha : 0 < conf.attempts
                  · have h2 : addSpawn
                        (withConf osTempRoot envRoot (decAttempts conf) rest) =
                        LaunchRes.ok inst n := by
                      simpa [hsp, hr, ha] using h
                    obtain ⟨k, hnk, hrec⟩ := addSpawn_eq_ok _ inst n h2
                    obtain ⟨i, hi, m, tail, ht⟩ := ih (decAttempts conf) k hrec
                    exact ⟨i + 1, Nat.succ_lt_succ hi, m, tail, ht⟩
                  · simp [hsp, hr, ha] at h

/-- C2 (witness): a launch whose single attempt observes one failed probe and
then a successful one returns the probed config, and the characterization
applies to it. -/
theorem withConfOkFromSuccessfulProbeWitness :
    (∀ l, runLoop (buildSpawnCfg ConfDefault) (.probeErr :: l) =
      runLoop (buildSpawnCfg ConfDefault) l) ∧
    ∃ i, ∃ h : i <
      ([⟨"a", 11, 12, true,
          [.probeErr, .probeOk ⟨"pk", "127.0.0.1:12", none⟩]⟩] : List AttemptEnv).length,
      ∃ m tail,
        (([⟨"a", 11, 12, true,
            [.probeErr, .probeOk ⟨"pk", "127.0.0.1:12", none⟩]⟩] : List AttemptEnv).get
          ⟨i, h⟩).poll =
          List.replicate m .probeErr ++
            .probeOk (LspsDModel.lspConfig
              ⟨.Temporary ("/tmp" ++ "/" ++ "a"), 11, 12,
                ⟨"pk", "127.0.0.1:12", none⟩⟩) :: tail := by
  have h := withConfOkFromSuccessfulProbe "/tmp" none ConfDefault
    [⟨"a", 11, 12, true, [.probeErr, .probeOk ⟨"pk", "127.0.0.1:12", none⟩]⟩]
    ⟨.Temporary ("/tmp" ++ "/" ++ "a"), 11, 12, ⟨"pk", "127.0.0.1:12", none⟩⟩ 1
  exact ⟨h.1, h.2 (by decide)⟩

theorem ackCheck_stepActions (e : NodeEvent) (l : List ChanAction) :
    ackCheck false (stepActions e ++ l) = ackCheck false l := by
  cases e <;> rfl

theorem ackCheck_blocks (pre : List NodeEvent) (l : List ChanAction) :
    ackCheck false ((pre.map stepActions).flatten ++ l) = ackCheck false l := by
  induction pre with
  | nil => rfl
  | cons e rest ih =>
      rw [List.map_cons, List.flatten_cons, List.append_assoc,
        ackCheck_stepActions, ih]

theorem confirmLoop_char :
    ∀ (evts : List NodeEvent) (acts : List ChanAction),
      confirmLoop evts = some acts →
      ∃ pre tail, evts = pre ++ .channelReady :: tail ∧ .channelReady ∉ pre ∧
        acts = (pre.map stepActions).flatten ++ [.fetchE, .ackE] := by
  intro evts
  induction evts with
  | nil => intro acts h; simp [confirmLoop] at h
  | cons e rest ih =>
      intro acts h
      cases e with
      | channelReady =>
          simp only [confirmLoop, reduceCtorEq, if_false, if_true,
            Option.some.injEq] at h
          refine ⟨[], rest, by simp, by simp, ?_⟩
          simp [← h]
      | channelPending =>
          cases hc : confirmLoop rest with
          | none => simp [confirmLoop, hc] at h
          | some tl =>
              simp only [confirmLoop, hc, reduceCtorEq, if_false, if_true,
                Option.some.injEq] at h
              obtain ⟨pre, tail, h1, h2, h3⟩ := ih tl hc
              refine ⟨.channelPending :: pre, tail, by simp [h1], by simp [h2], ?_⟩
              simp [← h, h3, stepActions]
      | otherEvent =>
          cases hc : confirmLoop rest with
          | none => simp [confirmLoop, hc] at h
          | some tl =>
              simp only [confirmLoop, hc, reduceCtorEq, if_false, if_true,
                Option.some.injEq] at h
              obtain ⟨pre, tail, h1, h2, h3⟩ := ih tl hc
              refine ⟨.otherEvent :: pre, tail, by simp [h1], by simp [h2], ?_⟩
              simp [← h, h3, stepActions]

/-- C5: whenever the channel-confirmation loop of the `open_channel` handler
terminates, its action trace acknowledges every fetched event exactly once
before the next fetch or the exit; the consumed events are a ready-free
prefix followed by the first "channel ready" event; each "channel pending"
event's block mines 6 confirmation blocks, waits for the indexer height and
resyncs the wallet before its acknowledgement; and the final block fetches
the ready event and acknowledges it before exiting. -/
theorem confirmLoopAcksEveryEvent :
    ∀ (evts : List NodeEvent) (acts : List ChanAction),
      confirmLoop evts = some acts →
      ackCheck false acts = true ∧
      ∃ pre tail, evts = pre ++ .channelReady :: tail ∧ .channelReady ∉ pre ∧
        acts = (pre.map stepActions).flatten ++ [.fetchE, .ackE] := by
  intro evts acts h
  obtain ⟨pre, tail, h1, h2, h3⟩ := confirmLoop_char evts acts h
  refine ⟨?_, pre, tail, h1, h2, h3⟩
  rw [h3, ackCheck_blocks]
  rfl

/-- C5 (witness): the loop run on an idle event, a pending event and a ready
event produces the expected fully acknowledged trace. -/
theorem confirmLoopAcksEveryEventWitness :
    ackCheck false [.fetchE, .ackE, .fetchE, .mineBlocks 6, .waitHeight,
      .syncWallets, .ackE, .fetchE, .ackE] = true ∧
    ∃ pre tail,
      ([.otherEvent, .channelPending, .channelReady] : List NodeEvent) =
        pre ++ .channelReady :: tail ∧
      .channelReady ∉ pre ∧
      ([.fetchE, .ackE, .fetchE, .mineBlocks 6, .waitHeight, .syncWallets,
        .ackE, .fetchE, .ackE] : List ChanAction) =
        (pre.map stepActions).flatten ++ [.fetchE, .ackE] :=
  confirmLoopAcksEveryEvent [.otherEvent, .channelPending, .channelReady]
    [.fetchE, .ackE, .fetchE, .mineBlocks 6, .waitHeight, .syncWallets,
      .ackE, .fetchE, .ackE] (by decide)

/-- C6 (counterexample): a well-formed JSON response whose invoice string is
not a valid Bolt11 invoice makes `get_invoice` panic (the `from_str(..)
.unwrap()`), instead of returning the failure as an error value. -/
theorem getInvoiceDecodeFailurePanics :
    (LspsClient.get_invoice (fun _ => none) (.ok ⟨"not-an-invoice"⟩)).2 =
      .panicked ∧
    (LspsClient.get_invoice (fun _ => none) (.ok ⟨"not-an-invoice"⟩)).1 = 1 :=
  ⟨rfl, rfl⟩

/-- A client operation performs exactly one request and maps a transport
failure to a transport error and a response-decode failure to a decode
error, without retrying or panicking on them. -/
def singleNoRetry {α β : Type} (w : WireResult α) (res : Nat × OpOutcome β) : Prop :=
  res.1 = 1 ∧ (w = .sendErr → res.2 = .err .transport) ∧
    (w = .jsonErr → res.2 = .err .decode)

/-- C6 (amended): every Control Client operation performs a single
synchronous request with no retry, and every transport or response-JSON-
decode failure is returned as an error value; however `get_invoice`
additionally panics — rather than returning an error — exactly when the
JSON-decoded invoice string fails Bolt11 parsing (`sync` reads no body, so
it has no decode failure). -/
theorem clientSingleRequestErrorsReturned :
    ∀ (w1 : WireResult LspConfigM) (w2 : WireResult FundingAddressM)
      (w3 : WireResult (List CompactChannelM)) (w4 : WireResult OpenChannelResponseM)
      (w5 : WireResult PayInvoiceResponseM) (parse : String → Option Bolt11M)
      (w6 : WireResult GetInvoiceResponseM) (w7 : WireResult Unit)
      (w8 : WireResult GetBalanceResponseM),
      singleNoRetry w1 (LspsClient.get_lsps_config w1) ∧
      singleNoRetry w2 (LspsClient.get_funding_address w2) ∧
      singleNoRetry w3 (LspsClient.list_channels w3) ∧
      singleNoRetry w4 (LspsClient.open_channel w4) ∧
      singleNoRetry w5 (LspsClient.pay_invoice w5) ∧
      (singleNoRetry w6 (LspsClient.get_invoice parse w6) ∧
        ((LspsClient.get_invoice parse w6).2 = .panicked →
          ∃ r, w6 = .ok r ∧ parse r.invoice = none)) ∧
      ((LspsClient.sync w7).1 = 1 ∧
        (w7 = .sendErr → (LspsClient.sync w7).2 = .err .transport)) ∧
      singleNoRetry w8 (LspsClient.get_balance w8) := by
  intro w1 w2 w3 w4 w5 parse w6 w7 w8
  refine ⟨?_, ?_, ?_, ?_, ?_, ⟨?_, ?_⟩, ⟨rfl, ?_⟩, ?_⟩
  · cases w1 <;> simp [singleNoRetry, LspsClient.get_lsps_config, requestOnce]
  · cases w2 <;> simp [singleNoRetry, LspsClient.get_funding_address, requestOnce]
  · cases w3 <;> simp [singleNoRetry, LspsClient.list_channels, requestOnce]
  · cases w4 <;> simp [singleNoRetry, LspsClient.open_channel, requestOnce]
  · cases w5 <;> simp [singleNoRetry, LspsClient.pay_invoice, requestOnce]
  · cases w6 <;> simp [singleNoRetry, LspsClient.get_invoice, requestOnce]
  · intro hp
    cases w6 with
    | sendErr => simp [LspsClient.get_invoice, requestOnce] at hp
    | jsonErr => simp [LspsClient.get_invoice, requestOnce] at hp
    | ok r =>
        cases hpr : parse r.invoice with
        | some v => simp [LspsClient.get_invoice, requestOnce, hpr] at hp
        | none => exact ⟨r, rfl, hpr⟩
  · intro h7
    subst h7
    rfl
  · cases w8 <;> simp [singleNoRetry, LspsClient.get_balance, requestOnce]

/-- C6 (witness): three operations evaluated at failing wire outcomes return
error values. -/
theorem clientSingleRequestErrorsReturnedWitness :
    (LspsClient.get_lsps_config .sendErr).2 = .err .transport ∧
    (LspsClient.get_balance (.jsonErr : WireResult GetBalanceResponseM)).2 =
      .err .decode ∧
    (LspsClient.sync .sendErr).2 = .err .transport := by
  have h := clientSingleRequestErrorsReturned .sendErr .sendErr .sendErr .sendErr
    .sendErr (fun _ => none) .jsonErr .sendErr .jsonErr
  exact ⟨h.1.2.1 rfl, h.2.2.2.2.2.2.2.2.2 rfl, h.2.2.2.2.2.2.1.2 rfl⟩

/-- C9: the `open_channel` handler passes the push amount to the node as
`req.push_sats * 1000` in `u64` arithmetic — correct (the sats-to-msats
conversion) whenever `push_sats ≤ u64::MAX / 1000`, and overflowing (the
passed value differs from the intended product) for any larger `push_sats`. -/
theorem openChannelPushOverflow :
    ∀ (req : OpenChannelRequestM),
      (req.push_sats ≤ (U64MOD - 1) / 1000 →
        openChannelPushArgMsat req = req.push_sats * 1000) ∧
      ((U64MOD - 1) / 1000 < req.push_sats →
        openChannelPushArgMsat req ≠ req.push_sats * 1000) := by
  intro req
  have hU : U64MOD = 18446744073709551616 := by norm_num [U64MOD]
  unfold openChannelPushArgMsat
  rw [hU]
  constructor
  · intro h
    omega
  · intro h
    omega

/-- C9 (witness): the daemon's own faucet path pushes 8,000,000 sats, which
converts exactly; a push amount above `u64::MAX / 1000` wraps. -/
theorem openChannelPushOverflowWitness :
    openChannelPushArgMsat ⟨"pk", "127.0.0.1:9735", 16000000, 8000000⟩ =
      8000000 * 1000 ∧
    (U64MOD - 1) / 1000 < 18446744073709551615 ∧
    openChannelPushArgMsat ⟨"pk", "127.0.0.1:9735", 16000000,
      18446744073709551615⟩ ≠ 18446744073709551615 * 1000 :=
  ⟨(openChannelPushOverflow _).1 (by norm_num [U64MOD]),
   by norm_num [U64MOD],
   (openChannelPushOverflow _).2 (by norm_num [U64MOD])⟩

theorem decodePairs_some_spec : ∀ (l : List Char) (b : List Nat),
    decodePairs l = some b →
    2 * b.length = l.length ∧ ∀ c ∈ l, (hexVal c).isSome = true
  | [], b => by
      intro h
      simp only [decodePairs, Option.some.injEq] at h
      subst h
      simp
  | [c], b => by intro h; simp [decodePairs] at h
  | c1 :: c2 :: rest, b => by
      intro h
      cases h1 : hexVal c1 with
      | none => simp [decodePairs, h1] at h
      | some hv =>
          cases h2 : hexVal c2 with
          | none => simp [decodePairs, h1, h2] at h
          | some lv =>
              cases h3 : decodePairs rest with
              | none => simp [decodePairs, h1, h2, h3] at h
              | some tl =>
                  simp only [decodePairs, h1, h2, h3, Option.some.injEq] at h
                  subst h
                  obtain ⟨hlen, hall⟩ := decodePairs_some_spec rest tl h3
                  constructor
                  · simp only [List.length_cons]
                    omega
                  · intro c hc
                    simp only [List.mem_cons] at hc
                    rcases hc with rfl | rfl | hc
                    · simp [h1]
                    · simp [h2]
                    · exact hall c hc

theorem fromHexArr32_some_spec (s : String) (bytes : List Nat)
    (h : fromHexArr32 s = some bytes) :
    s.data.length = 64 ∧ ∀ c ∈ s.data, (hexVal c).isSome = true := by
  unfold fromHexArr32 at h
  cases hd : decodePairs s.data with
  | none => rw [hd] at h; simp at h
  | some b =>
      rw [hd] at h
      by_cases hl : b.length = 32
      · obtain ⟨hlen, hall⟩ := decodePairs_some_spec s.data b hd
        exact ⟨by omega, hall⟩
      · simp [hl] at h

/-- C10: the `get_payment` handler panics — instead of producing any HTTP
response — on every path parameter that is not exactly 64 hexadecimal
characters (32 bytes of hex); when the parameter does decode and the payment
lookup succeeds, it answers with the payment's status string. -/
theorem getPaymentPanicsOnBadHex :
    ∀ (lookup : List Nat → Option PaymentStatusM) (id : String),
      (¬ (id.data.length = 64 ∧ ∀ c ∈ id.data, (hexVal c).isSome = true) →
        get_payment lookup id = .panicked) ∧
      (∀ bytes st, fromHexArr32 id = some bytes → lookup bytes = some st →
        get_payment lookup id = .ok (statusString st)) := by
  intro lookup id
  constructor
  · intro hbad
    cases hf : fromHexArr32 id with
    | none => simp [get_payment, hf]
    | some bytes => exact absurd (fromHexArr32_some_spec id bytes hf) hbad
  · intro bytes st h1 h2
    simp [get_payment, h1, h2]

/-- C10 (witness): a two-character id panics, and the all-zero 64-hex id with
a successful lookup answers with the status string. -/
theorem getPaymentPanicsOnBadHexWitness :
    get_payment (fun _ => none) "zz" = .panicked ∧
    get_payment (fun b => if b.length = 32 then some .pending else none)
      "0000000000000000000000000000000000000000000000000000000000000000" =
      .ok "pending" :=
  ⟨(getPaymentPanicsOnBadHex (fun _ => none) "zz").1 (by decide),
   (getPaymentPanicsOnBadHex
      (fun b => if b.length = 32 then some .pending else none)
      "0000000000000000000000000000000000000000000000000000000000000000").2
      (List.replicate 32 0) .pending (by decide) (by decide)⟩
